import Mathlib

/-!
Verification of the acquisition-and-processing orchestrator
(`src/data/ingestion.py` of DATA-RAG-SUS).

The Python module is shallowly embedded: pure helpers become Lean
functions on `String`/`Nat`/`List`, the network, the filesystem and the
child process become explicit oracles (function parameters describing
what each external call returns), and the control flow of every embedded
function mirrors the Python source line by line.  Observable effects
that the specification talks about (sleeps, attempts, skips, pauses,
file contents at the destination path, appended log lines) are
reified as explicit events or state fields.
-/

set_option maxRecDepth 16000

namespace Ingestion

/-! ## Python string primitives

`str.lower`, `str.upper`, `in` (substring test), `str.strip`,
`str.startswith`, `int(...)` on digit strings and `f"{m:02d}"`
formatting, as used by the module.  Lean's `Char.toLower`/`Char.toUpper`
only map ASCII letters; every needle the module searches for is pure
ASCII, so the substring tests below agree with CPython's on the strings
the module builds. -/

def pyLower (s : String) : String := String.mk (s.data.map Char.toLower)

def pyUpper (s : String) : String := String.mk (s.data.map Char.toUpper)

/-- `str.strip()` (ASCII whitespace; the module only strips ASCII). -/
def pyStrip (s : String) : String :=
  String.mk (((s.data.dropWhile Char.isWhitespace).reverse.dropWhile
    Char.isWhitespace).reverse)

/-- `str.startswith(pre)`. -/
def strStartsWith (s pre : String) : Bool := decide (pre.data <+: s.data)

/-- `s[:n]` on a Python `str` (slicing counts code points). -/
def strTake (s : String) (n : Nat) : String := String.mk (s.data.take n)

/-- Python's `sub in s` substring test. -/
def strContains (s sub : String) : Bool := decide (sub.data <:+: s.data)

/-- `int(...)` on a string of decimal digits. -/
def parseNat (s : String) : Nat :=
  s.data.foldl (fun a c => a * 10 + (c.toNat - 48)) 0

/-- `f"{m:02d}"`. -/
def pad2 (m : Nat) : String :=
  if m < 10 then "0" ++ toString m else toString m

/-! ## Module constants (`ingestion.py`, top of file) -/

def MAX_ATTEMPTS : Nat := 3
def CHUNK_SIZE : Nat := 80000
def R_NO_PROGRESS_TIMEOUT : Nat := 600
def R_HARD_TIMEOUT : Nat := 7200
def R_POLL_INTERVAL : Nat := 15
def MAX_FAILURES_BEFORE_SKIP : Nat := 3
def CIRCUIT_BREAKER_THRESHOLD : Nat := 3
def CIRCUIT_BREAKER_COOLDOWN : Nat := 300

def SYSTEMS : List String := ["SIH-RD", "SIA-PA"]

def STATES : List String :=
  ["AC", "AL", "AM", "AP", "BA", "CE", "DF", "ES", "GO",
   "MA", "MG", "MS", "MT", "PA", "PB", "PE", "PI", "PR",
   "RJ", "RN", "RO", "RR", "RS", "SC", "SE", "SP", "TO"]

/-- `MONTHS = range(1, 13)`. -/
def MONTHS : List Nat := List.range' 1 12

/-! ## Canonical error-message strings produced by `_classify_error`
and by the download helpers. -/

def msgInexistente404 : String := "Arquivo inexistente no servidor (404/550)."
def msgInexistenteListagem : String :=
  "Arquivo inexistente no servidor (não está na listagem do diretório)."
def msgVazio : String := "Download retornou arquivo vazio."
def msgTimeout : String :=
  "Tempo excedido (timeout): servidor ou rede lenta; tente novamente mais tarde."
def msgMemoria : String := "Erro de memória: arquivo ou conjunto de dados muito grande."

/-! ## `_download_dbc_ftp` and `_download_dbc_http` (C1)

Each function is embedded as a map from an oracle describing the remote
interaction to the declared result together with the content this call
left at the destination path (`none` = the path was never opened by this
call; `some bs` = the call wrote exactly the bytes `bs`). -/

/-- Result of one download helper: the declared `(success, error-message)`
pair plus the bytes this call wrote to the destination path. -/
structure DlResult where
  ok : Bool
  err : String
  written : Option (List Nat)
  deriving Repr, DecidableEq

/-- Remote behaviour seen by `_download_dbc_ftp`.  Error strings stand for
the value `_classify_error` returns for the raised exception. -/
inductive FtpOutcome where
  /-- exception raised in `connect`/`login`/`cwd` or while handling the
  listing, before the destination file is opened -/
  | preOpenError (err : String)
  /-- `nlst` succeeded and the file name is not in the listing -/
  | notInListing
  /-- exception raised during `retrbinary` after the chunks `written`
  were already passed to `f.write` -/
  | transferError (written : List (List Nat)) (err : String)
  /-- `retrbinary` completed, delivering the chunks `written` -/
  | complete (written : List (List Nat))
  deriving Repr, DecidableEq

/-- `_download_dbc_ftp` (ingestion.py:236-262). -/
def downloadDbcFtp : FtpOutcome → DlResult
  | .preOpenError err => ⟨false, err, none⟩
  | .notInListing => ⟨false, msgInexistenteListagem, none⟩
  | .transferError ws err => ⟨false, err, some ws.flatten⟩
  | .complete ws =>
      if ws.flatten.length = 0 then ⟨false, msgVazio, some ws.flatten⟩
      else ⟨true, "", some ws.flatten⟩

/-- Remote behaviour seen by `_download_dbc_http`. -/
inductive HttpOutcome where
  /-- `urllib.error.HTTPError` raised by `urlopen`; `errStr` is `str(e)` -/
  | httpError (code : Nat) (errStr : String) (classified : String)
  /-- any other exception raised before `path.write_bytes` completed;
  `classified` is `_classify_error(e)` -/
  | otherError (classified : String)
  /-- the body was read and written in full -/
  | body (bytes : List Nat)
  deriving Repr, DecidableEq

/-- `_download_dbc_http` (ingestion.py:265-279). -/
def downloadDbcHttp : HttpOutcome → DlResult
  | .httpError code errStr classified =>
      if code = 404 ∨ code = 410 ∨ strContains errStr "550" then
        ⟨false, msgInexistente404, none⟩
      else ⟨false, classified, none⟩
  | .otherError classified => ⟨false, classified, none⟩
  | .body bs =>
      if bs.length = 0 then ⟨false, msgVazio, some bs⟩
      else ⟨true, "", some bs⟩

/-! ## `_download_dbc` retry loop (C2) -/

/-- `"inexistente" in err.lower() or "550" in err or "404" in err`
(ingestion.py:296): the condition under which the primary retry loop is
abandoned because the file does not exist. -/
def notFoundRetryBreak (err : String) : Bool :=
  strContains (pyLower err) "inexistente" || strContains err "550"
    || strContains err "404"

/-- Observable events of one `_download_dbc` call. -/
inductive DlEv where
  /-- `time.sleep(min(2 ** attempt + jitter, 60))` before primary attempt
  `attempt` -/
  | sleep (attempt : Nat)
  /-- one `_download_dbc_ftp` attempt and its declared result -/
  | ftpAttempt (ok : Bool) (err : String)
  /-- the single `_download_dbc_http` attempt against the S3 mirror -/
  | httpAttempt (ok : Bool) (err : String)
  deriving Repr, DecidableEq

/-- The `for attempt in range(1, MAX_ATTEMPTS + 1)` loop of
`_download_dbc` (ingestion.py:288-299).  `ftp attempt` is the result of
the FTP helper on that attempt.  Returns `none` on primary success, or
`some err_ftp` with the error the loop left in `err`, together with the
events.  `remaining` counts the loop iterations still allowed. -/
def dlLoop (ftp : Nat → Bool × String) (errPrev : String) :
    Nat → Nat → Option String × List DlEv
  | _, 0 => (some errPrev, [])
  | attempt, remaining + 1 =>
      let evSleep : List DlEv := if attempt > 1 then [.sleep attempt] else []
      let r := ftp attempt
      let evs := evSleep ++ [.ftpAttempt r.1 r.2]
      if r.1 then (none, evs)
      else if notFoundRetryBreak r.2 then (some r.2, evs)
      else if attempt = MAX_ATTEMPTS then (some r.2, evs)
      else
        let rest := dlLoop ftp r.2 (attempt + 1) remaining
        (rest.1, evs ++ rest.2)

/-- `_download_dbc` (ingestion.py:282-305): primary retry loop, then one
secondary-mirror attempt. -/
def downloadDbc (ftp : Nat → Bool × String) (http : Bool × String) :
    (Bool × String) × List DlEv :=
  match dlLoop ftp "" 1 MAX_ATTEMPTS with
  | (none, evs) => ((true, ""), evs)
  | (some errFtp, evs) =>
      let evs2 := evs ++ [.httpAttempt http.1 http.2]
      if http.1 then ((true, ""), evs2)
      else ((false, "FTP: " ++ errFtp ++ " | S3: " ++ http.2), evs2)

/-- Scans a `_download_dbc` event trace: every failed primary attempt
whose error is classified not-found must be followed by exactly one
secondary-mirror attempt and nothing else (hence no further primary
attempts and no backoff sleeps after it). -/
def notFoundDiscipline : List DlEv → Bool
  | [] => true
  | .ftpAttempt false e :: rest =>
      if notFoundRetryBreak e then
        match rest with
        | [.httpAttempt _ _] => true
        | _ => false
      else notFoundDiscipline rest
  | _ :: rest => notFoundDiscipline rest

/-! ## `_run_r_download_only` polling loop (C3)

The supervisor launches the R child, attaches two reader threads that
refresh `last_activity[0]` on every line read, then polls every
`R_POLL_INTERVAL` seconds.  The loop is embedded as a step function over
a list of poll-tick observations: each tick describes what the
environment did during that poll interval.  Time is idealised to advance
by exactly the poll interval per iteration. -/

/-- In-loop supervisor state: wall clock `now`, loop start time `start`,
and the shared `last_activity[0]` cell. -/
structure SupState where
  now : Nat
  start : Nat
  lastActivity : Nat
  deriving Repr, DecidableEq

/-- What the environment did during one poll interval. -/
structure STick where
  /-- `proc.poll() is None` at the top of the loop -/
  procRunning : Bool
  /-- last value a reader thread stored into `last_activity[0]` during
  this interval (the timestamp of the line read), if any line was read -/
  streamActivity : Option Nat
  /-- `cache.exists()` at the poll -/
  cacheExists : Bool
  /-- `cache.stat()` succeeded (the `except OSError: pass` not taken) -/
  statOk : Bool
  deriving Repr, DecidableEq

/-- Value of `last_activity[0]` when the timeout checks run, after the
reader threads and the cache check of this tick updated it
(ingestion.py:606-647): the cache-existence update stores `now` and runs
after the thread writes, so it wins when it happens. -/
def lastActivityAfter (s : SupState) (t : STick) : Nat :=
  if t.cacheExists && t.statOk then s.now + R_POLL_INTERVAL
  else t.streamActivity.getD s.lastActivity

/-- Outcome of `_run_r_download_only` when it returns from inside the
polling loop: declared `(success, message)` plus whether `proc.kill()`
was called. -/
structure SupExit where
  ok : Bool
  msg : String
  killed : Bool
  deriving Repr, DecidableEq

def msgStalled : String :=
  "R download-only interrompido: sem atividade por "
    ++ toString (R_NO_PROGRESS_TIMEOUT / 60)
    ++ " min (nenhuma saída nem progresso de download)."

def msgHardTimeout : String :=
  "R download-only excedeu tempo máximo de "
    ++ toString (R_HARD_TIMEOUT / 3600) ++ " h."

/-- One iteration of the `while proc.poll() is None` body
(ingestion.py:632-659), entered with the process still running:
sleep one poll interval, apply the activity updates, then check the
no-progress ceiling and the hard ceiling in that order. -/
def superviseStep (s : SupState) (t : STick) : SupState ⊕ SupExit :=
  let now := s.now + R_POLL_INTERVAL
  let la := lastActivityAfter s t
  if now - la > R_NO_PROGRESS_TIMEOUT then .inr ⟨false, msgStalled, true⟩
  else if now - s.start > R_HARD_TIMEOUT then .inr ⟨false, msgHardTimeout, true⟩
  else .inl { s with now := now, lastActivity := la }

/-- The polling loop of `_run_r_download_only` over a finite tick
script.  `none` means the loop ended without an in-loop return (the
child exited, or the script ran out), handing control to the post-loop
exit-code and cache checks, which are outside this model. -/
def runRDownloadLoop : SupState → List STick → Option SupExit
  | _, [] => none
  | s, t :: ts =>
      if t.procRunning then
        match superviseStep s t with
        | .inl s' => runRDownloadLoop s' ts
        | .inr r => some r
      else none

/-! ## Decode–filter–transform–write pipeline (C5, C10)

`_process_dbc_python` streams DBF records into chunks of `CHUNK_SIZE`,
filters each chunk, enriches survivors and appends them to the Parquet
writer; the writer (and so the destination artifact) is created lazily
on the first non-empty filtered chunk.  The embedding is generic in the
record type, the row-level filter predicate (`_filter_sih`/`_filter_sia`
keep a row iff its mask holds) and the enrichment map.  The `artifact`
component is the content written to the destination path: `none` means
the writer was never created, i.e. no output artifact was produced. -/

/-- Process one filtered, non-empty batch: create the writer on first
use and append the enriched rows (ingestion.py:417-425 / 429-436). -/
def writeBatch {α β : Type} (meta : α → β) (artifact : Option (List β))
    (n : Nat) (kept : List α) : Option (List β) × Nat :=
  (some (artifact.getD [] ++ kept.map meta), n + kept.length)

/-- The record loop of `_process_dbc_python` (ingestion.py:408-436):
`chunk` is the in-memory buffer, `artifact`/`n` the writer content and
row count so far. -/
def procLoop {α β : Type} (keep : α → Bool) (meta : α → β) :
    List α → List α → Option (List β) → Nat → Option (List β) × Nat
  | [], chunk, artifact, n =>
      -- `if chunk:` trailing flush
      if chunk.isEmpty then (artifact, n)
      else
        let kept := chunk.filter keep
        if kept.isEmpty then (artifact, n)
        else writeBatch meta artifact n kept
  | r :: rest, chunk, artifact, n =>
      let chunk' := chunk ++ [r]
      if CHUNK_SIZE ≤ chunk'.length then
        let kept := chunk'.filter keep
        if kept.isEmpty then procLoop keep meta rest [] artifact n
        else
          let w := writeBatch meta artifact n kept
          procLoop keep meta rest [] w.1 w.2
      else procLoop keep meta rest chunk' artifact n

def msgNoMatch : String := "Nenhum registro passou no filtro"
def msgNoMatchCache : String := "Nenhum registro passou no filtro (cache R)."

/-- Chunking-and-writing phase of `_process_dbc_python`
(ingestion.py:406-444), after a successful download and decompression:
declared result plus the artifact content written to the destination. -/
def processDbcPython {α β : Type} (keep : α → Bool) (meta : α → β)
    (records : List α) : (Bool × String) × Option (List β) :=
  let r := procLoop keep meta records [] none 0
  match r.1 with
  | none => ((false, msgNoMatch), none)
  | some content => ((true, ""), some content)

/-- `_process_r_download_cache_python` batch loop (ingestion.py:694-725):
the cache parquet arrives already batched; each batch is filtered and
appended; zero surviving rows overall is the distinct no-match failure. -/
def processRCachePython {α β : Type} (keep : α → Bool) (meta : α → β)
    (batches : List (List α)) : (Bool × String) × Option (List β) :=
  let r := batches.foldl
    (fun (acc : Option (List β) × Nat) batch =>
      let kept := batch.filter keep
      if kept.isEmpty then acc
      else writeBatch meta acc.1 acc.2 kept)
    (none, 0)
  match r with
  | (none, _) => ((false, msgNoMatchCache), none)
  | (some content, n) =>
      if n = 0 then ((false, msgNoMatchCache), some content)
      else ((true, ""), some content)

/-! ## System-A (SIH) filter and enrichment (C10) -/

/-- `str(x)` over a pandas cell: a missing value (`NaN`) prints as
`"nan"` under `astype(str)`. -/
def pyStr : Option String → String
  | none => "nan"
  | some s => s

/-- `CID_REGEX` anchored match (`^E1[0-4]|I70|I73|I74|L97|M86|S78|S88|
S98|T13\.6|T87|Z89|S72` on the upper-cased, stripped string). -/
def cidMatch (s : String) : Bool :=
  let u := pyStrip (pyUpper s)
  (match u.data with
   | 'E' :: '1' :: c :: _ => decide ('0' ≤ c ∧ c ≤ '4')
   | _ => false)
  || strStartsWith u "I70" || strStartsWith u "I73" || strStartsWith u "I74"
  || strStartsWith u "L97" || strStartsWith u "M86" || strStartsWith u "S78"
  || strStartsWith u "S88" || strStartsWith u "S98" || strStartsWith u "T13.6"
  || strStartsWith u "T87" || strStartsWith u "Z89" || strStartsWith u "S72"

/-- One DBF record restricted to the fields `_filter_sih` and
`_add_meta_sih` read; `none` is a missing value. -/
structure SihRow where
  diag_princ : Option String
  proc_rea : Option String
  deriving Repr, DecidableEq

/-- Row-level mask of `_filter_sih` (ingestion.py:317-330):
`diag_princ` matches the CID regex, or `proc_rea` starts with `"0415"`
after `astype(str).str.strip()`. -/
def keepSih (r : SihRow) : Bool :=
  cidMatch (pyStr r.diag_princ)
    || strStartsWith (pyStrip (pyStr r.proc_rea)) "0415"

/-- `_classify_cid` (ingestion.py:124-136) on the `astype(str)` value. -/
def classifyCid (cid : String) : String :=
  if cid = "" then "Sem CID"
  else
    let c := pyUpper (pyStrip cid)
    if (match c.data with
        | 'E' :: '1' :: d :: _ => decide ('0' ≤ d ∧ d ≤ '4')
        | _ => false) then "Diabetes"
    else if strStartsWith c "I70" || strStartsWith c "I73" || strStartsWith c "I74"
        || strStartsWith c "L97" then "Vascular"
    else if strStartsWith c "S78" || strStartsWith c "S88" || strStartsWith c "S98"
        || strStartsWith c "T13.6" || strStartsWith c "S72" then "Trauma"
    else if strStartsWith c "Z89" || strStartsWith c "T87" || strStartsWith c "M86"
        then "Pos-Amputacao"
    else "Outro"

/-- A row of a System-A destination artifact: the surviving record plus
the derived columns `_add_meta_sih` appends. -/
structure SihOut where
  diag_princ : Option String
  proc_rea : Option String
  uf_origem : String
  ano_cmpt : Nat
  mes_cmpt : Nat
  sistema : String
  main_icd : Option String
  icd_group : String
  opm_flag : Bool
  fisio_flag : Bool
  deriving Repr, DecidableEq

/-- `_add_meta_sih` (ingestion.py:354-364) at the row level. -/
def addMetaSih (uf : String) (year month : Nat) (r : SihRow) : SihOut :=
  { diag_princ := r.diag_princ
    proc_rea := r.proc_rea
    uf_origem := uf
    ano_cmpt := year
    mes_cmpt := month
    sistema := "SIH"
    main_icd := r.diag_princ
    icd_group := classifyCid (pyStr r.diag_princ)
    opm_flag := false
    fisio_flag := false }

/-! ## Failure-log parsing (C6, C8, C9)

`LOG_ERRO_PATTERN = (?:ERRO PROCESSAMENTO|FALHA DEFINITIVA DOWNLOAD):
\s*(SIH-RD|SIA-PA)\s+([A-Z]{2})\s+(\d{4})\s+(\d{1,2})` with
`re.IGNORECASE`.  The pattern has no backtracking (each alternation is
first-character disjoint and each greedy class is followed by a
disjoint class), so a hand-rolled deterministic matcher is faithful.
`\s`/`[A-Z]`/`\d` are modelled at their ASCII meaning: the module only
ever writes ASCII whitespace and ASCII letters at these positions. -/

/-- `\s` (ASCII part). -/
def pyIsSpace (c : Char) : Bool :=
  c = ' ' || c = '\t' || c = '\n' || c = '\x0d' || c = '\x0b' || c = '\x0c'

/-- Case-insensitive literal match; returns the rest of the input. -/
def matchLitCI : List Char → List Char → Option (List Char)
  | [], cs => some cs
  | _ :: _, [] => none
  | p :: ps, c :: cs =>
      if c.toLower = p.toLower then matchLitCI ps cs else none

/-- Exactly `n` characters of class `p`; returns them and the rest. -/
def takeExact (p : Char → Bool) : Nat → List Char → Option (List Char × List Char)
  | 0, cs => some ([], cs)
  | _ + 1, [] => none
  | n + 1, c :: cs =>
      if p c then (takeExact p n cs).map (fun x => (c :: x.1, x.2)) else none

/-- `\s+` (greedy). -/
def skipSpaces1 : List Char → Option (List Char)
  | [] => none
  | c :: cs => if pyIsSpace c then some (cs.dropWhile pyIsSpace) else none

/-- `(\d{1,2})` (greedy). -/
def take1or2Digits : List Char → Option (List Char × List Char)
  | [] => none
  | [c] => if c.isDigit then some ([c], []) else none
  | c1 :: c2 :: rest =>
      if c1.isDigit then
        if c2.isDigit then some ([c1, c2], rest) else some ([c1], c2 :: rest)
      else none

/-- The four captured groups of `LOG_ERRO_PATTERN`, as matched
(original case preserved, as `re` does). -/
structure LogMatch where
  g1 : String
  g2 : String
  g3 : String
  g4 : String
  deriving Repr, DecidableEq

/-- Match `LOG_ERRO_PATTERN` anchored at the head of `cs`; on success
return the groups and the input after the match. -/
def matchLogErroAt (cs : List Char) : Option (LogMatch × List Char) := do
  let r1 ← matchLitCI "ERRO PROCESSAMENTO:".data cs
            <|> matchLitCI "FALHA DEFINITIVA DOWNLOAD:".data cs
  let r2 := r1.dropWhile pyIsSpace
  let r3 ← matchLitCI "SIH-RD".data r2 <|> matchLitCI "SIA-PA".data r2
  let g1 := String.mk (r2.take 6)
  let r4 ← skipSpaces1 r3
  let (ufC, r5) ← takeExact Char.isAlpha 2 r4
  let r6 ← skipSpaces1 r5
  let (yC, r7) ← takeExact Char.isDigit 4 r6
  let r8 ← skipSpaces1 r7
  let (mC, r9) ← take1or2Digits r8
  return (⟨g1, String.mk ufC, String.mk yC, String.mk mC⟩, r9)

/-- `re.search`: first position at which the pattern matches.  `fuel`
bounds the scan (callers pass the input length plus one). -/
def searchLogErro : Nat → List Char → Option (LogMatch × List Char)
  | 0, _ => none
  | fuel + 1, cs =>
      match matchLogErroAt cs with
      | some r => some r
      | none =>
          match cs with
          | [] => none
          | _ :: rest => searchLogErro fuel rest

/-- One unit of acquisition work: `(system, uf, year, month)`. -/
structure Target where
  system : String
  uf : String
  year : Nat
  month : Nat
  deriving Repr, DecidableEq

/-- The label `f"{system} {uf} {year} {month:02d}"` used by
`run_ingestion` and `_count_failures_in_log`. -/
def label (t : Target) : String :=
  t.system ++ " " ++ t.uf ++ " " ++ toString t.year ++ " " ++ pad2 t.month

/-- The unpadded alternative label `f"{system} {uf} {year} {month}"`
used by `_count_failures_in_log` when `month < 10`. -/
def labelAlt (t : Target) : String :=
  t.system ++ " " ++ t.uf ++ " " ++ toString t.year ++ " " ++ toString t.month

/-- Per-line test of `_count_failures_in_log` (ingestion.py:469-476). -/
def lineCountsAsFailure (t : Target) (line : String) : Bool :=
  if strContains line "ERRO ingestão"
      && (strContains line (label t)
          || (decide (t.month < 10) && strContains line (labelAlt t))) then
    true
  else
    match searchLogErro (line.data.length + 1) line.data with
    | some (m, _) =>
        m.g1 = t.system && pyUpper m.g2 = pyUpper t.uf
          && parseNat m.g3 = t.year && parseNat m.g4 = t.month
    | none => false

/-- `_count_failures_in_log` (ingestion.py:458-476) over the log seen
as a list of lines (an absent log file is the empty list). -/
def countFailuresInLog (t : Target) (logLines : List String) : Nat :=
  logLines.foldl (fun n line => if lineCountsAsFailure t line then n + 1 else n) 0

/-- `_targets_from_log` (ingestion.py:447-455): all non-overlapping
`LOG_ERRO_PATTERN` matches over the log text, as `re.finditer` yields
them; the fuel argument strictly bounds the number of matches. -/
def targetsFromLogAux : Nat → List Char → List Target
  | 0, _ => []
  | fuel + 1, cs =>
      match searchLogErro (cs.length + 1) cs with
      | none => []
      | some (m, rest) =>
          ⟨m.g1, pyUpper m.g2, parseNat m.g3, parseNat m.g4⟩
            :: targetsFromLogAux fuel rest

def targetsFromLog (text : String) : List Target :=
  targetsFromLogAux (text.data.length + 1) text.data

/-! ## `_is_file_not_found_error` and `_run_single` (C7) -/

/-- `_is_file_not_found_error` (ingestion.py:517-527). -/
def isFileNotFoundError (err : String) : Bool :=
  if err = "" then false
  else
    let e := pyUpper err
    strContains e "404" || strContains e "550"
      || strContains e "ARQUIVO INEXISTENTE" || strContains e "FILE NOT FOUND"
      || strContains e "CANNOT FIND THE FILE"

/-- `_run_single` (ingestion.py:562-579) over oracles for the three
calls it sequences: the direct Python acquisition, the R download-only
fallback and the cache post-processing.  The second component records
whether the R fallback supervisor was invoked. -/
def runSingle (direct : Bool × String) (rFallback : Bool × String)
    (cacheProc : Bool × String) : (Bool × String) × Bool :=
  if direct.1 then ((true, ""), false)
  else if isFileNotFoundError direct.2 then
    if rFallback.1 then (cacheProc, true)
    else ((false, rFallback.2), true)
  else ((false, direct.2), false)

/-! ## Target resolver (C6)

`_dest_path(...).exists()` is the oracle `destExists`; building the
partition directories is a side effect without observable value here. -/

/-- `skip_future and (year, month) > (today.year, today.month)`
(ingestion.py:491), with Python's lexicographic tuple order. -/
def futureSkip (skipFuture : Bool) (todayY todayM y m : Nat) : Bool :=
  skipFuture && (todayY < y || (y = todayY && todayM < m))

/-- `_targets_missing` (ingestion.py:479-495): the coverage grid minus
the targets whose destination artifact exists. -/
def targetsMissing (yMin yMax todayY todayM : Nat) (skipFuture : Bool)
    (destExists : Target → Bool) : List Target :=
  SYSTEMS.flatMap fun system =>
    STATES.flatMap fun uf =>
      (List.range' yMin (yMax + 1 - yMin)).flatMap fun year =>
        MONTHS.filterMap fun month =>
          if futureSkip skipFuture todayY todayM year month then none
          else if destExists ⟨system, uf, year, month⟩ then none
          else some ⟨system, uf, year, month⟩

/-- `out.sort(key=lambda x: (x[1], x[2], x[3], x[0]))`: lexicographic
order on `(uf, year, month, system)`. -/
def sortKeyLe (a b : Target) : Bool :=
  match compare a.uf b.uf with
  | .lt => true
  | .gt => false
  | .eq =>
    match compare a.year b.year with
    | .lt => true
    | .gt => false
    | .eq =>
      match compare a.month b.month with
      | .lt => true
      | .gt => false
      | .eq => compare a.system b.system ≠ .gt

def insertTarget (x : Target) : List Target → List Target
  | [] => [x]
  | y :: ys => if sortKeyLe x y then x :: y :: ys else y :: insertTarget x ys

def sortTargets (l : List Target) : List Target := l.foldr insertTarget []

/-- `get_targets` (ingestion.py:498-514): the union (a Python set,
modelled by `dedup`) of the missing grid and the log-recovered targets,
re-filtered by destination-artifact absence, then sorted.
`_targets_missing` is called with its default `skip_future=True`. -/
def getTargets (fromLog includeMissing : Bool) (yMin yMax todayY todayM : Nat)
    (destExists : Target → Bool) (logText : String) : List Target :=
  let t0 : List Target :=
    (if includeMissing then targetsMissing yMin yMax todayY todayM true destExists
     else [])
      ++ (if fromLog then targetsFromLog logText else [])
  let out := (t0.dedup).filter fun t => !destExists t
  sortTargets out

/-! ## Circuit breaker & scheduler: the `run_ingestion` target loop
(ingestion.py:755-791) (C4, C8)

The loop is embedded with the failure log threaded through the state:
`_count_failures_in_log` re-reads the log at the top of every
iteration, so it sees the lines appended by earlier iterations.  Log
lines are modelled by their message part; the
`timestamp | Python | ingestion | ` prefix that `log()` prepends
matches none of the substring or regex tests of
`_count_failures_in_log`.  (The informational lines `_run_single` and
the connection test write are omitted: none of them contains
`"ERRO ingestão"` or a `LOG_ERRO_PATTERN` match, so they never affect a
failure count.) -/

/-- `"timeout" in err.lower() or "tempo excedido" in err.lower()`
(ingestion.py:784). -/
def isTimeoutMsg (err : String) : Bool :=
  strContains (pyLower err) "timeout" || strContains (pyLower err) "tempo excedido"

def breakerLine (n : Nat) : String :=
  "Circuit breaker: aguardando " ++ toString CIRCUIT_BREAKER_COOLDOWN
    ++ "s após " ++ toString n ++ " timeouts."

def ignoradoLine (t : Target) : String :=
  "IGNORADO (≥" ++ toString MAX_FAILURES_BEFORE_SKIP ++ " falhas no log): "
    ++ label t

def sucessoLine (t : Target) : String := "SUCESSO ingestão: " ++ label t

/-- `f"ERRO ingestão {label}: {err[:200]}"`. -/
def erroLine (t : Target) (err : String) : String :=
  "ERRO ingestão " ++ label t ++ ": " ++ strTake err 200

/-- Scheduler loop state: the `consecutive_timeouts` counter, the
failure-log lines, and the `ok`/`fail`/`skipped` tallies. -/
structure SchedState where
  cnt : Nat
  logLines : List String
  okN : Nat
  failN : Nat
  skippedN : Nat
  deriving Repr, DecidableEq

/-- Per-target behaviour of the world: what `_run_single` returns and
whether the destination artifact exists afterwards. -/
structure SchedEnv where
  runSingleR : Target → Bool × String
  destExists : Target → Bool

/-- Observable scheduler events. -/
inductive SEv where
  /-- `time.sleep(CIRCUIT_BREAKER_COOLDOWN)` -/
  | pause (secs : Nat)
  /-- target skipped: no acquisition attempt made -/
  | skipT (t : Target)
  /-- `_run_single` called for the target -/
  | attempt (t : Target)
  deriving Repr, DecidableEq

/-- The circuit-breaker head of each iteration (ingestion.py:760-764):
when the counter has reached the threshold, log, sleep the cooldown and
reset the counter to 0. -/
def breakerAdjusted (st : SchedState) : SchedState :=
  if CIRCUIT_BREAKER_THRESHOLD ≤ st.cnt then
    { st with cnt := 0, logLines := st.logLines ++ [breakerLine st.cnt] }
  else st

def breakerEvs (st : SchedState) : List SEv :=
  if CIRCUIT_BREAKER_THRESHOLD ≤ st.cnt then [.pause CIRCUIT_BREAKER_COOLDOWN]
  else []

/-- One iteration of the `for i, (system, uf, year, month) in ...` body
(ingestion.py:759-789). -/
def schedStep (env : SchedEnv) (st : SchedState) (t : Target) :
    SchedState × List SEv :=
  let st0 := breakerAdjusted st
  let evsP := breakerEvs st
  if MAX_FAILURES_BEFORE_SKIP ≤ countFailuresInLog t st0.logLines then
    ({ st0 with
        skippedN := st0.skippedN + 1,
        logLines := st0.logLines ++ [ignoradoLine t] },
      evsP ++ [.skipT t])
  else
    let r := env.runSingleR t
    if r.1 && env.destExists t then
      ({ st0 with
          cnt := 0,
          okN := st0.okN + 1,
          logLines := st0.logLines ++ [sucessoLine t] },
        evsP ++ [.attempt t])
    else
      let err := if r.1 && !(env.destExists t) then "Arquivo não gravado" else r.2
      ({ st0 with
          cnt := if isTimeoutMsg err then st0.cnt + 1 else 0,
          failN := st0.failN + 1,
          logLines := st0.logLines ++ [erroLine t err] },
        evsP ++ [.attempt t])

/-- The whole target loop. -/
def schedRun (env : SchedEnv) : SchedState → List Target → SchedState × List SEv
  | st, [] => (st, [])
  | st, t :: ts =>
      let s := schedStep env st t
      let r := schedRun env s.1 ts
      (r.1, s.2 ++ r.2)

/-- The effective failure message of an attempted target, as the loop
computes it before classification (ingestion.py:781-782). -/
def attemptErr (env : SchedEnv) (t : Target) : String :=
  if (env.runSingleR t).1 && !(env.destExists t) then "Arquivo não gravado"
  else (env.runSingleR t).2

/-- The attempted target counts as a scheduler success
(ingestion.py:775). -/
def attemptOk (env : SchedEnv) (t : Target) : Bool :=
  (env.runSingleR t).1 && env.destExists t

/-- The scheduler state right after the breaker pause that follows three
consecutive timeout-classified failures from a counter-0 state: counter
reset to 0, the three failures and the breaker pause logged, three
failures tallied. -/
def cooldownState (env : SchedEnv) (st : SchedState) (t1 t2 t3 : Target) :
    SchedState :=
  { st with
      cnt := 0,
      failN := st.failN + 1 + 1 + 1,
      logLines := st.logLines ++ [erroLine t1 (attemptErr env t1)]
        ++ [erroLine t2 (attemptErr env t2)]
        ++ [erroLine t3 (attemptErr env t3)] ++ [breakerLine 3] }

/-! ## Concrete fixtures used to instantiate the scheduler theorems -/

/-- A world in which every attempt fails with the canonical timeout
message and no destination artifact appears. -/
def envAllTimeout : SchedEnv :=
  ⟨fun _ => (false, msgTimeout), fun _ => false⟩

def tJan : Target := ⟨"SIH-RD", "AC", 2023, 1⟩
def tFeb : Target := ⟨"SIH-RD", "AC", 2023, 2⟩
def tMar : Target := ⟨"SIH-RD", "AC", 2023, 3⟩
def tApr : Target := ⟨"SIH-RD", "AC", 2023, 4⟩
def tMay : Target := ⟨"SIH-RD", "AC", 2023, 5⟩

/-- Fresh scheduler state: counter 0, empty log, zero tallies. -/
def freshSched : SchedState := ⟨0, [], 0, 0, 0⟩

/-- A state whose log already records three failures for `tMay`. -/
def threeFailuresSched : SchedState :=
  ⟨0, [erroLine tMay msgVazio, erroLine tMay msgVazio, erroLine tMay msgVazio],
    0, 0, 0⟩

/-! # Theorems -/

/-- C1, counterexample.  A timeout raised by `retrbinary` after one chunk
was already written makes `_download_dbc_ftp` declare failure while the
destination path is left populated with the partial download — the code
performs no cleanup, so the claim "the destination path is not left
populated with downloaded content on declared failure" is false. -/
theorem c1_failure_can_leave_partial_content :
    (downloadDbcFtp (.transferError [[55]] msgTimeout)).ok = false ∧
      (downloadDbcFtp (.transferError [[55]] msgTimeout)).written = some [55] ∧
      ([55] : List Nat) ≠ [] := by
  refine ⟨rfl, rfl, by decide⟩

/-- C1, amended: the converse guarantee is what the download helpers
provide.  Whenever `_download_dbc_ftp` or `_download_dbc_http` declares
success, the destination path is populated with the non-empty downloaded
content; on declared failure the path may be left with partial or empty
content, which is never cleaned up. -/
theorem c1_success_populates_destination :
    (∀ o : FtpOutcome, (downloadDbcFtp o).ok = true →
        ∃ bs, (downloadDbcFtp o).written = some bs ∧ bs ≠ []) ∧
    (∀ h : HttpOutcome, (downloadDbcHttp h).ok = true →
        ∃ bs, (downloadDbcHttp h).written = some bs ∧ bs ≠ []) := by
  constructor
  · intro o hok
    cases o with
    | preOpenError e => exact absurd hok (by simp [downloadDbcFtp])
    | notInListing => exact absurd hok (by simp [downloadDbcFtp])
    | transferError ws e => exact absurd hok (by simp [downloadDbcFtp])
    | complete ws =>
        by_cases hz : ws.flatten.length = 0
        · rw [show downloadDbcFtp (.complete ws) = ⟨false, msgVazio, some ws.flatten⟩
            from by rw [downloadDbcFtp, if_pos hz]] at hok
          exact absurd hok (by simp)
        · refine ⟨ws.flatten, ?_, fun hnil => hz (by simp [hnil])⟩
          rw [show downloadDbcFtp (.complete ws) = ⟨true, "", some ws.flatten⟩
            from by rw [downloadDbcFtp, if_neg hz]]
  · intro h hok
    cases h with
    | httpError code estr cl =>
        by_cases hc : code = 404 ∨ code = 410 ∨ strContains estr "550" = true
        · rw [show downloadDbcHttp (.httpError code estr cl)
              = ⟨false, msgInexistente404, none⟩
            from by rw [downloadDbcHttp, if_pos hc]] at hok
          exact absurd hok (by simp)
        · rw [show downloadDbcHttp (.httpError code estr cl) = ⟨false, cl, none⟩
            from by rw [downloadDbcHttp, if_neg hc]] at hok
          exact absurd hok (by simp)
    | otherError cl => exact absurd hok (by simp [downloadDbcHttp])
    | body bs =>
        by_cases hz : bs.length = 0
        · rw [show downloadDbcHttp (.body bs) = ⟨false, msgVazio, some bs⟩
            from by rw [downloadDbcHttp, if_pos hz]] at hok
          exact absurd hok (by simp)
        · refine ⟨bs, ?_, fun hnil => hz (by simp [hnil])⟩
          rw [show downloadDbcHttp (.body bs) = ⟨true, "", some bs⟩
            from by rw [downloadDbcHttp, if_neg hz]]

theorem c1_success_populates_destination_witness :
    (downloadDbcFtp (.complete [[7], [9]])).ok = true ∧
      ∃ bs, (downloadDbcFtp (.complete [[7], [9]])).written = some bs ∧ bs ≠ [] :=
  ⟨by decide, c1_success_populates_destination.1 (.complete [[7], [9]]) (by decide)⟩

/-- C3.  In the fallback-supervisor polling loop, if after this tick's
activity updates the time since the last recorded activity (line read
from either stream, or cache artifact observed to exist) exceeds
`R_NO_PROGRESS_TIMEOUT`, the child is killed and the run fails with the
stalled message — even when the hard wall-clock ceiling
`R_HARD_TIMEOUT` has not elapsed. -/
theorem c3_stall_kills_before_hard_timeout (s : SupState) (t : STick)
    (ts : List STick)
    (hrun : t.procRunning = true)
    (hstall : s.now + R_POLL_INTERVAL - lastActivityAfter s t > R_NO_PROGRESS_TIMEOUT)
    (_hhard : s.now + R_POLL_INTERVAL - s.start ≤ R_HARD_TIMEOUT) :
    runRDownloadLoop s (t :: ts) = some ⟨false, msgStalled, true⟩ := by
  simp only [runRDownloadLoop, hrun, if_true, superviseStep]
  rw [if_pos hstall]

theorem c3_stall_kills_before_hard_timeout_witness :
    (⟨true, none, false, false⟩ : STick).procRunning = true ∧
      (1000 : Nat) + R_POLL_INTERVAL - lastActivityAfter ⟨1000, 0, 100⟩ ⟨true, none, false, false⟩ > R_NO_PROGRESS_TIMEOUT ∧
      (1000 : Nat) + R_POLL_INTERVAL - (0 : Nat) ≤ R_HARD_TIMEOUT ∧
      runRDownloadLoop ⟨1000, 0, 100⟩ [⟨true, none, false, false⟩] = some ⟨false, msgStalled, true⟩ :=
  ⟨rfl, by decide, by decide,
    c3_stall_kills_before_hard_timeout ⟨1000, 0, 100⟩ ⟨true, none, false, false⟩ []
      rfl (by decide) (by decide)⟩

/-- C7.  `_run_single` invokes the external R fallback exactly when the
direct acquisition failed and its final error message is classified
not-found by `_is_file_not_found_error`; the canonical timeout,
empty-result, memory and no-match messages are not so classified, so
those failures never trigger the fallback. -/
theorem c7_fallback_iff_not_found :
    (∀ direct rFallback cacheProc : Bool × String,
        (runSingle direct rFallback cacheProc).2
          = (!direct.1 && isFileNotFoundError direct.2)) ∧
    isFileNotFoundError msgTimeout = false ∧
    isFileNotFoundError msgVazio = false ∧
    isFileNotFoundError msgMemoria = false ∧
    isFileNotFoundError msgNoMatch = false := by
  refine ⟨?_, by decide, by decide, by decide, by decide⟩
  intro direct rFallback cacheProc
  obtain ⟨ok, err⟩ := direct
  cases ok with
  | true => simp [runSingle]
  | false =>
      cases hnf : isFileNotFoundError err with
      | true =>
          cases hr : rFallback.1 <;> simp [runSingle, hnf, hr]
      | false => simp [runSingle, hnf]

/-! ### Pipeline lemmas -/

/-- Rows of the artifact after `writeBatch` are old rows or enriched
images of kept records. -/
theorem mem_writeBatch {α β : Type} (meta : α → β) (art : Option (List β))
    (n : Nat) (kept : List α) (b : β)
    (hb : b ∈ ((writeBatch meta art n kept).1.getD [])) :
    b ∈ art.getD [] ∨ ∃ a ∈ kept, meta a = b := by
  simp only [writeBatch, Option.getD_some, List.mem_append, List.mem_map] at hb
  exact hb

/-- Every row the record loop adds to the artifact is an enriched image,
so a property of all enriched rows is an artifact invariant. -/
theorem procLoop_artifact_pred {α β : Type} (keep : α → Bool) (meta : α → β)
    (P : β → Prop) (hmeta : ∀ a, P (meta a)) :
    ∀ (rs chunk : List α) (art : Option (List β)) (n : Nat),
      (∀ b ∈ art.getD [], P b) →
      ∀ b ∈ ((procLoop keep meta rs chunk art n).1.getD []), P b := by
  intro rs
  induction rs with
  | nil =>
      intro chunk art n hart b hb
      simp only [procLoop] at hb
      by_cases hce : chunk.isEmpty
      · rw [if_pos hce] at hb; exact hart b hb
      · rw [if_neg hce] at hb
        by_cases hke : (chunk.filter keep).isEmpty
        · rw [if_pos hke] at hb; exact hart b hb
        · rw [if_neg hke] at hb
          rcases mem_writeBatch meta art n _ b hb with h | ⟨a, _, ha⟩
          · exact hart b h
          · exact ha ▸ hmeta a
  | cons r rest ih =>
      intro chunk art n hart b hb
      simp only [procLoop] at hb
      by_cases hsz : CHUNK_SIZE ≤ (chunk ++ [r]).length
      · rw [if_pos hsz] at hb
        by_cases hke : ((chunk ++ [r]).filter keep).isEmpty
        · rw [if_pos hke] at hb; exact ih [] art n hart b hb
        · rw [if_neg hke] at hb
          refine ih [] _ _ ?_ b hb
          intro c hc
          rcases mem_writeBatch meta art n _ c hc with h | ⟨a, _, ha⟩
          · exact hart c h
          · exact ha ▸ hmeta a
      · rw [if_neg hsz] at hb; exact ih (chunk ++ [r]) art n hart b hb

/-- The artifact content returned by `_process_dbc_python` is the loop
artifact. -/
theorem processDbcPython_snd {α β : Type} (keep : α → Bool) (meta : α → β)
    (records : List α) :
    (processDbcPython keep meta records).2
      = (procLoop keep meta records [] none 0).1 := by
  unfold processDbcPython
  rcases h : (procLoop keep meta records [] none 0) with ⟨art, n⟩
  cases art <;> simp

/-- C10.  Every row written to a System-A (SIH) destination artifact has
both System-B sub-category flags false: `_add_meta_sih` sets `opm_flag`
and `fisio_flag` constantly to `False` on every surviving row. -/
theorem c10_sih_rows_have_false_flags (records : List SihRow) (uf : String)
    (y m : Nat) :
    ∀ out ∈ ((processDbcPython keepSih (addMetaSih uf y m) records).2.getD []),
      out.opm_flag = false ∧ out.fisio_flag = false := by
  intro out hout
  rw [processDbcPython_snd] at hout
  refine procLoop_artifact_pred keepSih (addMetaSih uf y m)
    (fun o => o.opm_flag = false ∧ o.fisio_flag = false)
    (fun a => ⟨rfl, rfl⟩) records [] none 0 ?_ out hout
  intro b hb
  simp at hb

theorem c10_sih_rows_have_false_flags_witness :
    addMetaSih "AC" 2023 1 ⟨some "E10", none⟩
        ∈ ((processDbcPython keepSih (addMetaSih "AC" 2023 1)
            [⟨some "E10", none⟩]).2.getD []) ∧
      (addMetaSih "AC" 2023 1 ⟨some "E10", none⟩).opm_flag = false ∧
      (addMetaSih "AC" 2023 1 ⟨some "E10", none⟩).fisio_flag = false :=
  ⟨by decide,
    c10_sih_rows_have_false_flags [⟨some "E10", none⟩] "AC" 2023 1
      (addMetaSih "AC" 2023 1 ⟨some "E10", none⟩) (by decide)⟩

/-- When no record passes the filter, the record loop writes nothing. -/
theorem procLoop_all_filtered_out {α β : Type} (keep : α → Bool) (meta : α → β) :
    ∀ (rs chunk : List α) (art : Option (List β)) (n : Nat),
      (∀ r ∈ rs, keep r = false) → (∀ r ∈ chunk, keep r = false) →
      procLoop keep meta rs chunk art n = (art, n) := by
  intro rs
  induction rs with
  | nil =>
      intro chunk art n _ hchunk
      have hke : (chunk.filter keep).isEmpty = true := by
        rw [List.isEmpty_iff, List.filter_eq_nil_iff]
        intro a ha
        simp [hchunk a ha]
      simp only [procLoop]
      by_cases hce : chunk.isEmpty
      · rw [if_pos hce]
      · rw [if_neg hce, if_pos hke]
  | cons r rest ih =>
      intro chunk art n hrs hchunk
      have hchunk' : ∀ x ∈ chunk ++ [r], keep x = false := by
        intro x hx
        rcases List.mem_append.mp hx with h | h
        · exact hchunk x h
        · rcases List.mem_singleton.mp h with rfl
          exact hrs x (List.mem_cons_self _ _)
      have hrest : ∀ x ∈ rest, keep x = false :=
        fun x hx => hrs x (List.mem_cons_of_mem _ hx)
      have hke : ((chunk ++ [r]).filter keep).isEmpty = true := by
        rw [List.isEmpty_iff, List.filter_eq_nil_iff]
        intro a ha
        simp [hchunk' a ha]
      simp only [procLoop]
      by_cases hsz : CHUNK_SIZE ≤ (chunk ++ [r]).length
      · rw [if_pos hsz, if_pos hke]
        exact ih [] art n hrest (by intro x hx; simp at hx)
      · rw [if_neg hsz]
        exact ih (chunk ++ [r]) art n hrest hchunk'

/-- The record loop never creates an empty artifact. -/
theorem procLoop_artifact_nonempty {α β : Type} (keep : α → Bool) (meta : α → β) :
    ∀ (rs chunk : List α) (art : Option (List β)) (n : Nat),
      (art = none ∨ ∃ l, art = some l ∧ l ≠ []) →
      ((procLoop keep meta rs chunk art n).1 = none
        ∨ ∃ l, (procLoop keep meta rs chunk art n).1 = some l ∧ l ≠ []) := by
  intro rs
  induction rs with
  | nil =>
      intro chunk art n hart
      simp only [procLoop]
      by_cases hce : chunk.isEmpty
      · rw [if_pos hce]; exact hart
      · rw [if_neg hce]
        by_cases hke : (chunk.filter keep).isEmpty
        · rw [if_pos hke]; exact hart
        · rw [if_neg hke]
          refine Or.inr ⟨art.getD [] ++ (chunk.filter keep).map meta, rfl, ?_⟩
          have : chunk.filter keep ≠ [] := fun h => by
            rw [h] at hke; exact hke rfl
          simp only [ne_eq, List.append_eq_nil, List.map_eq_nil_iff, not_and]
          intro _
          exact this
  | cons r rest ih =>
      intro chunk art n hart
      simp only [procLoop]
      by_cases hsz : CHUNK_SIZE ≤ (chunk ++ [r]).length
      · rw [if_pos hsz]
        by_cases hke : (((chunk ++ [r]).filter keep)).isEmpty
        · rw [if_pos hke]; exact ih [] art n hart
        · rw [if_neg hke]
          refine ih [] _ _ (Or.inr ⟨_, rfl, ?_⟩)
          have : (chunk ++ [r]).filter keep ≠ [] := fun h => by
            rw [h] at hke; exact hke rfl
          simp only [ne_eq, List.append_eq_nil, List.map_eq_nil_iff, not_and]
          intro _
          exact this
      · rw [if_neg hsz]; exact ih (chunk ++ [r]) art n hart

/-- The batch fold of `_process_r_download_cache_python` leaves its
accumulator untouched when every record is filtered out. -/
theorem rcacheFold_all_filtered_out {α β : Type} (keep : α → Bool) (meta : α → β) :
    ∀ (batches : List (List α)) (acc : Option (List β) × Nat),
      (∀ b ∈ batches, ∀ r ∈ b, keep r = false) →
      batches.foldl
        (fun (acc : Option (List β) × Nat) batch =>
          let kept := batch.filter keep
          if kept.isEmpty then acc else writeBatch meta acc.1 acc.2 kept)
        acc = acc := by
  intro batches
  induction batches with
  | nil => intro acc _; rfl
  | cons b rest ih =>
      intro acc hall
      have hke : (b.filter keep).isEmpty = true := by
        rw [List.isEmpty_iff, List.filter_eq_nil_iff]
        intro a ha
        simp [hall b (List.mem_cons_self _ _) a ha]
      simp only [List.foldl_cons, hke, if_pos]
      exact ih acc fun x hx => hall x (List.mem_cons_of_mem _ hx)

/-- The batch fold never creates an empty artifact. -/
theorem rcacheFold_artifact_nonempty {α β : Type} (keep : α → Bool) (meta : α → β) :
    ∀ (batches : List (List α)) (acc : Option (List β) × Nat),
      (acc.1 = none ∨ ∃ l, acc.1 = some l ∧ l ≠ []) →
      (((batches.foldl
          (fun (acc : Option (List β) × Nat) batch =>
            let kept := batch.filter keep
            if kept.isEmpty then acc else writeBatch meta acc.1 acc.2 kept)
          acc).1 = none)
        ∨ ∃ l, (batches.foldl
            (fun (acc : Option (List β) × Nat) batch =>
              let kept := batch.filter keep
              if kept.isEmpty then acc else writeBatch meta acc.1 acc.2 kept)
            acc).1 = some l ∧ l ≠ []) := by
  intro batches
  induction batches with
  | nil => intro acc hacc; exact hacc
  | cons b rest ih =>
      intro acc hacc
      simp only [List.foldl_cons]
      by_cases hke : (b.filter keep).isEmpty
      · rw [if_pos hke]; exact ih acc hacc
      · rw [if_neg hke]
        refine ih _ (Or.inr ⟨_, rfl, ?_⟩)
        have : b.filter keep ≠ [] := fun h => by rw [h] at hke; exact hke rfl
        simp only [ne_eq, List.append_eq_nil, List.map_eq_nil_iff, not_and]
        intro _
        exact this

/-- C5.  If zero rows survive the inclusion filter across all chunks or
batches, both pipeline variants report the distinct no-match failure and
produce no output artifact; and a declared pipeline success implies the
artifact holds at least one surviving (enriched) row. -/
theorem c5_no_match_behaviour {α β : Type} (keep : α → Bool) (meta : α → β) :
    (∀ records : List α, (∀ r ∈ records, keep r = false) →
        processDbcPython keep meta records = ((false, msgNoMatch), none)) ∧
    (∀ records : List α, (processDbcPython keep meta records).1.1 = true →
        ∃ content, (processDbcPython keep meta records).2 = some content
          ∧ content ≠ []) ∧
    (∀ batches : List (List α), (∀ b ∈ batches, ∀ r ∈ b, keep r = false) →
        processRCachePython keep meta batches = ((false, msgNoMatchCache), none)) ∧
    (∀ batches : List (List α), (processRCachePython keep meta batches).1.1 = true →
        ∃ content, (processRCachePython keep meta batches).2 = some content
          ∧ content ≠ []) := by
  refine ⟨?_, ?_, ?_, ?_⟩
  · intro records hall
    unfold processDbcPython
    rw [procLoop_all_filtered_out keep meta records [] none 0 hall
      (by intro r hr; simp at hr)]
  · intro records hok
    rcases procLoop_artifact_nonempty keep meta records [] none 0 (Or.inl rfl)
      with hn | ⟨l, hl, hne⟩
    · simp [processDbcPython, hn] at hok
    · refine ⟨l, ?_, hne⟩
      simp [processDbcPython, hl]
  · intro batches hall
    unfold processRCachePython
    rw [rcacheFold_all_filtered_out keep meta batches (none, 0) hall]
  · intro batches hok
    obtain ⟨art, n, hpair⟩ :
        ∃ art n, batches.foldl
          (fun (acc : Option (List β) × Nat) batch =>
            let kept := batch.filter keep
            if kept.isEmpty then acc else writeBatch meta acc.1 acc.2 kept)
          (none, 0) = (art, n) := ⟨_, _, rfl⟩
    have hart := rcacheFold_artifact_nonempty keep meta batches (none, 0) (Or.inl rfl)
    rw [hpair] at hart
    unfold processRCachePython at hok ⊢
    rw [hpair] at hok ⊢
    cases art with
    | none => simp at hok
    | some l =>
        rcases hart with hno | ⟨l', hl', hne⟩
        · simp at hno
        · simp only [Option.some.injEq] at hl'
          subst hl'
          by_cases hz : n = 0
          · subst hz
            simp at hok
          · exact ⟨l, by simp [hz], hne⟩

theorem c5_no_match_behaviour_witness :
    ((∀ r ∈ ([⟨some "Z99", none⟩] : List SihRow), keepSih r = false) ∧
      processDbcPython keepSih (addMetaSih "AC" 2023 1) [⟨some "Z99", none⟩]
        = ((false, msgNoMatch), none)) ∧
    ((processDbcPython keepSih (addMetaSih "AC" 2023 1)
        [(⟨some "E10", none⟩ : SihRow)]).1.1 = true ∧
      ∃ content, (processDbcPython keepSih (addMetaSih "AC" 2023 1)
          [(⟨some "E10", none⟩ : SihRow)]).2 = some content ∧ content ≠ []) ∧
    ((∀ b ∈ ([[⟨some "Z99", none⟩]] : List (List SihRow)),
        ∀ r ∈ b, keepSih r = false) ∧
      processRCachePython keepSih (addMetaSih "AC" 2023 1) [[⟨some "Z99", none⟩]]
        = ((false, msgNoMatchCache), none)) :=
  ⟨⟨by decide,
      (c5_no_match_behaviour keepSih (addMetaSih "AC" 2023 1)).1
        [⟨some "Z99", none⟩] (by decide)⟩,
    ⟨by decide,
      (c5_no_match_behaviour keepSih (addMetaSih "AC" 2023 1)).2.1
        [⟨some "E10", none⟩] (by decide)⟩,
    ⟨by decide,
      (c5_no_match_behaviour keepSih (addMetaSih "AC" 2023 1)).2.2.1
        [[⟨some "Z99", none⟩]] (by decide)⟩⟩

/-! ### Download retry-loop lemmas (C2) -/

theorem nfd_sleep (k : Nat) (l : List DlEv) :
    notFoundDiscipline (.sleep k :: l) = notFoundDiscipline l := by
  simp [notFoundDiscipline]

theorem nfd_ftp_true (e : String) (l : List DlEv) :
    notFoundDiscipline (.ftpAttempt true e :: l) = notFoundDiscipline l := by
  simp [notFoundDiscipline]

theorem nfd_ftp_false_not_nf (e : String) (l : List DlEv)
    (h : notFoundRetryBreak e = false) :
    notFoundDiscipline (.ftpAttempt false e :: l) = notFoundDiscipline l := by
  simp [notFoundDiscipline, h]

theorem nfd_ftp_false_nf (e : String) (l : List DlEv)
    (h : notFoundRetryBreak e = true) :
    notFoundDiscipline (.ftpAttempt false e :: l)
      = (match l with | [.httpAttempt _ _] => true | _ => false) := by
  simp [notFoundDiscipline, h]

/-- Any primary-loop trace satisfies the not-found discipline, both as
left by a successful loop and once the single secondary attempt is
appended after a failed loop. -/
theorem dlLoop_discipline (ftp : Nat → Bool × String) (hb : Bool) (he : String) :
    ∀ (remaining attempt : Nat) (errPrev : String),
      notFoundDiscipline ((dlLoop ftp errPrev attempt remaining).2
        ++ [DlEv.httpAttempt hb he]) = true
      ∧ ((dlLoop ftp errPrev attempt remaining).1 = none →
          notFoundDiscipline (dlLoop ftp errPrev attempt remaining).2 = true) := by
  intro remaining
  induction remaining with
  | zero =>
      intro attempt errPrev
      exact ⟨by simp [dlLoop, notFoundDiscipline], by simp [dlLoop]⟩
  | succ rem ih =>
      intro attempt errPrev
      rcases hr : ftp attempt with ⟨ok, e⟩
      have hstep : dlLoop ftp errPrev attempt (rem + 1)
          = (let evSleep : List DlEv :=
              if attempt > 1 then [.sleep attempt] else []
             let evs := evSleep ++ [.ftpAttempt ok e]
             if ok then (none, evs)
             else if notFoundRetryBreak e then (some e, evs)
             else if attempt = MAX_ATTEMPTS then (some e, evs)
             else
               let rest := dlLoop ftp e (attempt + 1) rem
               (rest.1, evs ++ rest.2)) := by
        simp only [dlLoop, hr]
      cases ok with
      | true =>
          rw [hstep]
          by_cases hgt : attempt > 1 <;>
            simp [hgt, nfd_sleep, nfd_ftp_true, notFoundDiscipline]
      | false =>
          cases hnf : notFoundRetryBreak e with
          | true =>
              rw [hstep]
              constructor
              · by_cases hgt : attempt > 1 <;>
                  simp [hgt, hnf, nfd_sleep, nfd_ftp_false_nf e _ hnf]
              · intro h
                simp [hnf] at h
          | false =>
              by_cases hmax : attempt = MAX_ATTEMPTS
              · rw [hstep]
                constructor
                · by_cases hgt : attempt > 1 <;>
                    simp [hgt, hnf, hmax, nfd_sleep,
                      nfd_ftp_false_not_nf e _ hnf, notFoundDiscipline]
                · intro h
                  simp [hnf, hmax] at h
              · rw [hstep]
                constructor
                · by_cases hgt : attempt > 1 <;>
                    simp [hgt, hnf, hmax, nfd_sleep,
                      nfd_ftp_false_not_nf e _ hnf, (ih (attempt + 1) e).1]
                · intro h
                  simp only [hnf, hmax, Bool.false_eq_true, if_false,
                    ite_false] at h
                  by_cases hgt : attempt > 1 <;>
                    simp [hgt, hnf, hmax, nfd_sleep,
                      nfd_ftp_false_not_nf e _ hnf,
                      (ih (attempt + 1) e).2 h]

/-- C2.  In every `_download_dbc` run, once a primary attempt is
classified not-found, the remainder of the trace is exactly one
secondary-mirror attempt: no further primary attempts, no
exponential-backoff sleeps, and exactly one S3 attempt before the final
result. -/
theorem c2_not_found_halts_primary (ftp : Nat → Bool × String)
    (http : Bool × String) :
    notFoundDiscipline (downloadDbc ftp http).2 = true := by
  unfold downloadDbc
  rcases hl : dlLoop ftp "" 1 MAX_ATTEMPTS with ⟨res, evs⟩
  have hd := dlLoop_discipline ftp http.1 http.2 MAX_ATTEMPTS 1 ""
  rw [hl] at hd
  cases res with
  | none => simpa using hd.2 rfl
  | some errFtp =>
      cases hh : http.1 with
      | false => rw [hh] at hd; simpa using hd.1
      | true => rw [hh] at hd; simpa using hd.1

/-! ### Failure-count aliasing (C9) -/

theorem strContains_eq_true (s sub : String) :
    strContains s sub = true ↔ sub.data <:+: s.data := by
  simp [strContains]

/-- The log line `run_ingestion` writes for a failed target starts with
the fixed marker, then the padded label, then the truncated error. -/
theorem erroLine_data (t : Target) (err : String) :
    (erroLine t err).data
      = ("ERRO ingestão" : String).data
        ++ (' ' :: ((label t).data ++ (": " : String).data
              ++ (strTake err 200).data)) := by
  have hlit : ("ERRO ingestão " : String).data
      = ("ERRO ingestão" : String).data ++ [' '] := rfl
  simp [erroLine, String.data_append, hlit, List.append_assoc]

/-- C9.  For a target with month `m < 10`, `_count_failures_in_log`
counts an `ERRO ingestão` line written for a different month `m2` of the
same system, region and year whenever the two-digit rendering of `m2`
starts with the digit string of `m` (for `m = 1`: months 10, 11, 12),
because the unpadded alternative label is matched as a substring. -/
theorem c9_unpadded_label_counts_other_months (sys uf err : String)
    (year m m2 : Nat) (hm : m < 10) (_hne : m ≠ m2)
    (hpre : (toString m).data <+: (pad2 m2).data) :
    countFailuresInLog ⟨sys, uf, year, m⟩
      [erroLine ⟨sys, uf, year, m2⟩ err] = 1 := by
  obtain ⟨q, hq⟩ := hpre
  have hErro : strContains (erroLine ⟨sys, uf, year, m2⟩ err)
      "ERRO ingestão" = true := by
    rw [strContains_eq_true, erroLine_data]
    exact (List.prefix_append _ _).isInfix
  have hAlt : strContains (erroLine ⟨sys, uf, year, m2⟩ err)
      (labelAlt ⟨sys, uf, year, m⟩) = true := by
    rw [strContains_eq_true]
    refine ⟨("ERRO ingestão " : String).data,
      q ++ (": " : String).data ++ (strTake err 200).data, ?_⟩
    simp only [erroLine, labelAlt, label, String.data_append,
      List.append_assoc, ← hq]
  simp [countFailuresInLog, lineCountsAsFailure, hErro, hAlt, hm]

theorem c9_unpadded_label_counts_other_months_witness :
    (1 : Nat) < 10 ∧ (1 : Nat) ≠ 10 ∧
      (toString (1 : Nat)).data <+: (pad2 10).data ∧
      countFailuresInLog ⟨"SIH-RD", "AC", 2023, 1⟩
        [erroLine ⟨"SIH-RD", "AC", 2023, 10⟩ "Tempo excedido (timeout)"] = 1 :=
  ⟨by decide, by decide, by decide,
    c9_unpadded_label_counts_other_months "SIH-RD" "AC"
      "Tempo excedido (timeout)" 2023 1 10 (by decide) (by decide) (by decide)⟩

/-! ### Resolver lemmas (C6) -/

theorem mem_insertTarget {x a : Target} :
    ∀ {l : List Target}, x ∈ insertTarget a l → x = a ∨ x ∈ l := by
  intro l
  induction l with
  | nil => intro h; simpa [insertTarget] using h
  | cons y ys ih =>
      intro h
      simp only [insertTarget] at h
      by_cases hle : sortKeyLe a y
      · rw [if_pos hle] at h
        rcases List.mem_cons.mp h with h | h
        · exact Or.inl h
        · exact Or.inr h
      · rw [if_neg hle] at h
        rcases List.mem_cons.mp h with h | h
        · exact Or.inr (h ▸ List.mem_cons_self _ _)
        · rcases ih h with h | h
          · exact Or.inl h
          · exact Or.inr (List.mem_cons_of_mem _ h)

theorem mem_sortTargets {x : Target} :
    ∀ {l : List Target}, x ∈ sortTargets l → x ∈ l := by
  intro l
  induction l with
  | nil => intro h; simp [sortTargets] at h
  | cons y ys ih =>
      intro h
      have h' : x ∈ insertTarget y (sortTargets ys) := h
      rcases mem_insertTarget h' with h | h
      · exact h ▸ List.mem_cons_self _ _
      · exact List.mem_cons_of_mem _ (ih h)

/-- C6.  Every target the resolver returns has an absent destination
artifact, so the resolver's output on a later run is disjoint from any
set of targets whose destination artifacts exist — in particular from
the previous run's succeeded targets, including targets recovered from
the failure log. -/
theorem c6_resolver_disjoint_from_succeeded (fromLog includeMissing : Bool)
    (yMin yMax todayY todayM : Nat) (destExists : Target → Bool)
    (logText : String) (succeeded : List Target)
    (hdone : ∀ t ∈ succeeded, destExists t = true) :
    ∀ t ∈ getTargets fromLog includeMissing yMin yMax todayY todayM
        destExists logText, t ∉ succeeded := by
  intro t ht hmem
  unfold getTargets at ht
  have hfil := mem_sortTargets ht
  rw [List.mem_filter] at hfil
  have hnot := hfil.2
  rw [hdone t hmem] at hnot
  simp at hnot

theorem c6_resolver_disjoint_from_succeeded_witness :
    (∀ t ∈ ([⟨"SIH-RD", "AC", 2023, 1⟩] : List Target),
        (fun x : Target => x.uf == "AC") t = true) ∧
      (∀ t ∈ getTargets true false 5 4 2025 1 (fun x : Target => x.uf == "AC")
          "ERRO PROCESSAMENTO: SIA-PA BA 2024 2",
        t ∉ ([⟨"SIH-RD", "AC", 2023, 1⟩] : List Target)) :=
  ⟨by decide,
    c6_resolver_disjoint_from_succeeded true false 5 4 2025 1
      (fun x : Target => x.uf == "AC") "ERRO PROCESSAMENTO: SIA-PA BA 2024 2"
      [⟨"SIH-RD", "AC", 2023, 1⟩] (by decide)⟩

/-! ### Scheduler lemmas (C8, C4) -/

/-- C8.  When the failure log — read fresh at the top of the iteration,
after any breaker pause — already records at least
`MAX_FAILURES_BEFORE_SKIP` failures for the target, the scheduler marks
it skipped (logging the skip) and continues with the remaining targets
without making any acquisition attempt for it. -/
theorem c8_skip_without_attempt (env : SchedEnv) (st : SchedState) (t : Target)
    (ts : List Target)
    (hskip : MAX_FAILURES_BEFORE_SKIP
      ≤ countFailuresInLog t (breakerAdjusted st).logLines) :
    schedRun env st (t :: ts)
      = ((schedRun env
            { breakerAdjusted st with
                skippedN := (breakerAdjusted st).skippedN + 1,
                logLines := (breakerAdjusted st).logLines ++ [ignoradoLine t] }
            ts).1,
          breakerEvs st ++ [SEv.skipT t]
            ++ (schedRun env
                { breakerAdjusted st with
                    skippedN := (breakerAdjusted st).skippedN + 1,
                    logLines := (breakerAdjusted st).logLines ++ [ignoradoLine t] }
                ts).2)
      ∧ SEv.attempt t ∉ breakerEvs st ++ [SEv.skipT t] := by
  constructor
  · have hstep : schedStep env st t
        = ({ breakerAdjusted st with
              skippedN := (breakerAdjusted st).skippedN + 1,
              logLines := (breakerAdjusted st).logLines ++ [ignoradoLine t] },
            breakerEvs st ++ [SEv.skipT t]) := by
      simp only [schedStep]
      rw [if_pos hskip]
    simp only [schedRun, hstep, List.append_assoc]
  · by_cases h3 : CIRCUIT_BREAKER_THRESHOLD ≤ st.cnt <;>
      simp [breakerEvs, h3]

theorem c8_skip_without_attempt_witness :
    MAX_FAILURES_BEFORE_SKIP
        ≤ countFailuresInLog tMay (breakerAdjusted threeFailuresSched).logLines ∧
      (schedRun envAllTimeout threeFailuresSched [tMay]
          = ((schedRun envAllTimeout
                { breakerAdjusted threeFailuresSched with
                    skippedN := (breakerAdjusted threeFailuresSched).skippedN + 1,
                    logLines := (breakerAdjusted threeFailuresSched).logLines
                      ++ [ignoradoLine tMay] }
                []).1,
              breakerEvs threeFailuresSched ++ [SEv.skipT tMay]
                ++ (schedRun envAllTimeout
                    { breakerAdjusted threeFailuresSched with
                        skippedN := (breakerAdjusted threeFailuresSched).skippedN + 1,
                        logLines := (breakerAdjusted threeFailuresSched).logLines
                          ++ [ignoradoLine tMay] }
                    []).2)
        ∧ SEv.attempt tMay ∉ breakerEvs threeFailuresSched ++ [SEv.skipT tMay]) :=
  ⟨by decide,
    c8_skip_without_attempt envAllTimeout threeFailuresSched tMay [] (by decide)⟩

/-- A non-skipped attempt that fails with a timeout-classified message
increments the counter by one and logs the failure. -/
theorem schedStep_timeout_fail (env : SchedEnv) (st : SchedState) (t : Target)
    (h3 : st.cnt < CIRCUIT_BREAKER_THRESHOLD)
    (hskip : countFailuresInLog t st.logLines < MAX_FAILURES_BEFORE_SKIP)
    (hok : attemptOk env t = false)
    (htm : isTimeoutMsg (attemptErr env t) = true) :
    schedStep env st t
      = ({ st with
            cnt := st.cnt + 1,
            failN := st.failN + 1,
            logLines := st.logLines ++ [erroLine t (attemptErr env t)] },
          [SEv.attempt t]) := by
  have hb : breakerAdjusted st = st := by
    simp [breakerAdjusted, Nat.not_le.mpr h3]
  have hbe : breakerEvs st = [] := by
    simp [breakerEvs, Nat.not_le.mpr h3]
  unfold attemptOk at hok
  unfold attemptErr at htm ⊢
  simp only [schedStep, hb, hbe, Nat.not_le.mpr hskip, if_false, hok, htm,
    if_true, ite_false, List.nil_append]
  simp

/-- When the breaker threshold is reached, the iteration is exactly a
cooldown pause followed by the same iteration from the counter-reset
state. -/
theorem schedStep_breaker (env : SchedEnv) (st : SchedState) (t : Target)
    (h3 : CIRCUIT_BREAKER_THRESHOLD ≤ st.cnt) :
    schedStep env st t
      = ((schedStep env (breakerAdjusted st) t).1,
          SEv.pause CIRCUIT_BREAKER_COOLDOWN
            :: (schedStep env (breakerAdjusted st) t).2) := by
  have hcnt : (breakerAdjusted st).cnt = 0 := by
    simp [breakerAdjusted, h3]
  have hb2 : breakerAdjusted (breakerAdjusted st) = breakerAdjusted st := by
    simp [breakerAdjusted, hcnt]
    intro h
    exact absurd (hcnt ▸ h) (by simp [CIRCUIT_BREAKER_THRESHOLD])
  have hbe2 : breakerEvs (breakerAdjusted st) = [] := by
    simp [breakerEvs, hcnt, CIRCUIT_BREAKER_THRESHOLD]
  have hbe : breakerEvs st = [SEv.pause CIRCUIT_BREAKER_COOLDOWN] := by
    simp [breakerEvs, h3]
  conv_lhs => rw [schedStep]
  conv_rhs => rw [schedStep]
  simp only [hb2, hbe2, hbe]
  by_cases hskip : MAX_FAILURES_BEFORE_SKIP
      ≤ countFailuresInLog t (breakerAdjusted st).logLines
  · rw [if_pos hskip, if_pos hskip]
    simp
  · rw [if_neg hskip, if_neg hskip]
    by_cases hok : ((env.runSingleR t).1 && env.destExists t) = true
    · simp only [if_pos hok]
      simp
    · simp only [if_neg hok]
      simp

/-- Run-level form of `schedStep_breaker`. -/
theorem schedRun_breaker (env : SchedEnv) (st : SchedState) (t : Target)
    (ts : List Target) (h3 : CIRCUIT_BREAKER_THRESHOLD ≤ st.cnt) :
    schedRun env st (t :: ts)
      = ((schedRun env (breakerAdjusted st) (t :: ts)).1,
          SEv.pause CIRCUIT_BREAKER_COOLDOWN
            :: (schedRun env (breakerAdjusted st) (t :: ts)).2) := by
  simp only [schedRun, schedStep_breaker env st t h3, List.cons_append]

/-- Unfolded cons equation of the run loop. -/
theorem schedRun_cons (env : SchedEnv) (st : SchedState) (t : Target)
    (ts : List Target) :
    schedRun env st (t :: ts)
      = ((schedRun env (schedStep env st t).1 ts).1,
          (schedStep env st t).2 ++ (schedRun env (schedStep env st t).1 ts).2) :=
  rfl

/-- A successful, non-skipped attempt resets the counter to 0. -/
theorem schedStep_success_resets (env : SchedEnv) (st : SchedState) (u : Target)
    (hskip : countFailuresInLog u (breakerAdjusted st).logLines
      < MAX_FAILURES_BEFORE_SKIP)
    (hok : attemptOk env u = true) :
    (schedStep env st u).1.cnt = 0 := by
  unfold attemptOk at hok
  simp [schedStep, Nat.not_le.mpr hskip, hok]

/-- A non-skipped attempt that fails without a timeout classification
resets the counter to 0. -/
theorem schedStep_non_timeout_resets (env : SchedEnv) (st : SchedState)
    (u : Target)
    (hskip : countFailuresInLog u (breakerAdjusted st).logLines
      < MAX_FAILURES_BEFORE_SKIP)
    (hok : attemptOk env u = false)
    (htm : isTimeoutMsg (attemptErr env u) = false) :
    (schedStep env st u).1.cnt = 0 := by
  unfold attemptOk at hok
  unfold attemptErr at htm
  simp [schedStep, Nat.not_le.mpr hskip, hok]
  simpa using htm

/-- C4.  Starting from counter 0, three consecutive non-skipped,
timeout-classified failures drive the counter to 1, 2, 3; the run then
pauses for exactly `CIRCUIT_BREAKER_COOLDOWN` before the 4th target and
continues exactly as from the counter reset to 0 (the cooldown state);
and in general a successful or non-timeout-classified outcome resets
the counter to 0. -/
theorem c4_circuit_breaker (env : SchedEnv) (st : SchedState)
    (t1 t2 t3 t4 : Target) (ts : List Target)
    (h0 : st.cnt = 0)
    (hs1 : countFailuresInLog t1 st.logLines < MAX_FAILURES_BEFORE_SKIP)
    (ha1 : attemptOk env t1 = false)
    (ht1 : isTimeoutMsg (attemptErr env t1) = true)
    (hs2 : countFailuresInLog t2
        (st.logLines ++ [erroLine t1 (attemptErr env t1)])
      < MAX_FAILURES_BEFORE_SKIP)
    (ha2 : attemptOk env t2 = false)
    (ht2 : isTimeoutMsg (attemptErr env t2) = true)
    (hs3 : countFailuresInLog t3
        (st.logLines ++ [erroLine t1 (attemptErr env t1)]
          ++ [erroLine t2 (attemptErr env t2)])
      < MAX_FAILURES_BEFORE_SKIP)
    (ha3 : attemptOk env t3 = false)
    (ht3 : isTimeoutMsg (attemptErr env t3) = true) :
    (schedStep env st t1).1.cnt = 1
    ∧ (schedStep env (schedStep env st t1).1 t2).1.cnt = 2
    ∧ (schedStep env (schedStep env (schedStep env st t1).1 t2).1 t3).1.cnt = 3
    ∧ schedRun env st (t1 :: t2 :: t3 :: t4 :: ts)
        = ((schedRun env (cooldownState env st t1 t2 t3) (t4 :: ts)).1,
            [SEv.attempt t1, SEv.attempt t2, SEv.attempt t3,
              SEv.pause CIRCUIT_BREAKER_COOLDOWN]
              ++ (schedRun env (cooldownState env st t1 t2 t3) (t4 :: ts)).2)
    ∧ (cooldownState env st t1 t2 t3).cnt = 0
    ∧ (∀ (env2 : SchedEnv) (st2 : SchedState) (u : Target),
        countFailuresInLog u (breakerAdjusted st2).logLines
            < MAX_FAILURES_BEFORE_SKIP →
          attemptOk env2 u = true → (schedStep env2 st2 u).1.cnt = 0)
    ∧ (∀ (env2 : SchedEnv) (st2 : SchedState) (u : Target),
        countFailuresInLog u (breakerAdjusted st2).logLines
            < MAX_FAILURES_BEFORE_SKIP →
          attemptOk env2 u = false → isTimeoutMsg (attemptErr env2 u) = false →
          (schedStep env2 st2 u).1.cnt = 0) := by
  obtain ⟨c, lg, okN, fN, skN⟩ := st
  have hc : c = 0 := h0
  subst hc
  have e1 : schedStep env ⟨0, lg, okN, fN, skN⟩ t1
      = (⟨1, lg ++ [erroLine t1 (attemptErr env t1)], okN, fN + 1, skN⟩,
          [SEv.attempt t1]) := by
    simpa using schedStep_timeout_fail env ⟨0, lg, okN, fN, skN⟩ t1
      (show (0 : Nat) < 3 by decide) hs1 ha1 ht1
  have e2 : schedStep env
      ⟨1, lg ++ [erroLine t1 (attemptErr env t1)], okN, fN + 1, skN⟩ t2
      = (⟨2, lg ++ [erroLine t1 (attemptErr env t1)]
              ++ [erroLine t2 (attemptErr env t2)], okN, fN + 1 + 1, skN⟩,
          [SEv.attempt t2]) := by
    simpa using schedStep_timeout_fail env
      ⟨1, lg ++ [erroLine t1 (attemptErr env t1)], okN, fN + 1, skN⟩ t2
      (show (1 : Nat) < 3 by decide) hs2 ha2 ht2
  have e3 : schedStep env
      ⟨2, lg ++ [erroLine t1 (attemptErr env t1)]
          ++ [erroLine t2 (attemptErr env t2)], okN, fN + 1 + 1, skN⟩ t3
      = (⟨3, lg ++ [erroLine t1 (attemptErr env t1)]
              ++ [erroLine t2 (attemptErr env t2)]
              ++ [erroLine t3 (attemptErr env t3)], okN, fN + 1 + 1 + 1, skN⟩,
          [SEv.attempt t3]) := by
    simpa using schedStep_timeout_fail env
      ⟨2, lg ++ [erroLine t1 (attemptErr env t1)]
          ++ [erroLine t2 (attemptErr env t2)], okN, fN + 1 + 1, skN⟩ t3
      (show (2 : Nat) < 3 by decide) hs3 ha3 ht3
  have hba : breakerAdjusted
      ⟨3, lg ++ [erroLine t1 (attemptErr env t1)]
          ++ [erroLine t2 (attemptErr env t2)]
          ++ [erroLine t3 (attemptErr env t3)], okN, fN + 1 + 1 + 1, skN⟩
      = cooldownState env ⟨0, lg, okN, fN, skN⟩ t1 t2 t3 := by
    simp [breakerAdjusted, cooldownState, CIRCUIT_BREAKER_THRESHOLD]
  refine ⟨by rw [e1], by rw [e1]; dsimp only; rw [e2],
    by rw [e1]; dsimp only; rw [e2]; dsimp only; rw [e3], ?_, rfl,
    fun env2 st2 u h1 h2 => schedStep_success_resets env2 st2 u h1 h2,
    fun env2 st2 u h1 h2 h3 => schedStep_non_timeout_resets env2 st2 u h1 h2 h3⟩
  have hbr := schedRun_breaker env
    ⟨3, lg ++ [erroLine t1 (attemptErr env t1)]
        ++ [erroLine t2 (attemptErr env t2)]
        ++ [erroLine t3 (attemptErr env t3)], okN, fN + 1 + 1 + 1, skN⟩
    t4 ts (show (3 : Nat) ≤ 3 by decide)
  rw [hba] at hbr
  rw [schedRun_cons env ⟨0, lg, okN, fN, skN⟩ t1, e1]
  dsimp only
  rw [schedRun_cons env
    ⟨1, lg ++ [erroLine t1 (attemptErr env t1)], okN, fN + 1, skN⟩ t2, e2]
  dsimp only
  rw [schedRun_cons env
    ⟨2, lg ++ [erroLine t1 (attemptErr env t1)]
        ++ [erroLine t2 (attemptErr env t2)], okN, fN + 1 + 1, skN⟩ t3, e3]
  dsimp only
  rw [hbr]
  simp

theorem c4_circuit_breaker_witness :
    freshSched.cnt = 0 ∧
      countFailuresInLog tJan freshSched.logLines < MAX_FAILURES_BEFORE_SKIP ∧
      attemptOk envAllTimeout tJan = false ∧
      isTimeoutMsg (attemptErr envAllTimeout tJan) = true ∧
      schedRun envAllTimeout freshSched [tJan, tFeb, tMar, tApr]
        = ((schedRun envAllTimeout
              (cooldownState envAllTimeout freshSched tJan tFeb tMar) [tApr]).1,
            [SEv.attempt tJan, SEv.attempt tFeb, SEv.attempt tMar,
              SEv.pause CIRCUIT_BREAKER_COOLDOWN]
              ++ (schedRun envAllTimeout
                  (cooldownState envAllTimeout freshSched tJan tFeb tMar)
                  [tApr]).2) :=
  ⟨rfl, by decide, by decide, by decide,
    (c4_circuit_breaker envAllTimeout freshSched tJan tFeb tMar tApr []
        rfl (by decide) (by decide) (by decide) (by decide) (by decide)
        (by decide) (by decide) (by decide) (by decide)).2.2.2.1⟩

end Ingestion
